import Mathlib

/-!
Shallow embedding of the sailfish runtime core (`src/runtime/buffer.rs` and
`src/runtime/render.rs`): the growable `Buffer` and the `Render` protocol.

Modelling conventions:
- `usize` is 64-bit; values are `Nat` and wrapping subtraction is taken
  modulo `2 ^ 64`, exactly where the source uses `wrapping_sub`.
- A buffer's observable content (the initialized prefix `[0, len)`) is a
  Lean `String`; `len` is its UTF-8 byte size, mirroring the `len` field,
  which the source always keeps equal to the number of bytes written.
- Aborting the process (a failed `assert!` or `handle_alloc_error`) is the
  `none` outcome of an `Option`; the host allocator is an explicit oracle
  `af : Nat → Bool` (`true` = the allocator returns null for that size),
  so allocation failure is visible in the model.
-/

/-- Maximum value of a 64-bit `usize`. -/
def USIZE_MAX : Nat := 2 ^ 64 - 1

/-- `usize::wrapping_sub`: subtraction modulo `2 ^ 64` (for `b ≤ 2 ^ 64`). -/
def wrappingSub (a b : Nat) : Nat := (a + (USIZE_MAX + 1) - b) % (USIZE_MAX + 1)

/-- UTF-8 byte length of a character list (sum of `Char.utf8Size`). -/
def utf8Len : List Char → Nat
  | [] => 0
  | c :: cs => c.utf8Size + utf8Len cs

/-- UTF-8 byte length of a string: the number of bytes `push_str` copies. -/
def strBytes (s : String) : Nat := utf8Len s.data

/-- Concatenation of a list of spans in encounter order. -/
def concatStrs : List String → String
  | [] => ""
  | s :: rest => s ++ concatStrs rest

/-- The `Buffer` of `buffer.rs`: `content` is the initialized prefix
`[0, len)` of the allocation (always well-formed UTF-8 in the source, hence a
`String` here) and `capacity` the allocation size in bytes.  The `len` field
of the source is `strBytes content`. -/
structure Buffer where
  content : String
  capacity : Nat
deriving DecidableEq

/-- `Buffer::len`: number of initialized bytes. -/
def Buffer.len (b : Buffer) : Nat := strBytes b.content

/-- `Buffer::new()`: empty buffer, zero capacity, no allocation. -/
def Buffer.new : Buffer := ⟨"", 0⟩

/-- `safe_alloc`: asserts `capacity <= usize::MAX / 2` (abort otherwise),
then allocates, aborting via `handle_alloc_error` if the allocator fails.
Returns the allocated size. -/
def safe_alloc (af : Nat → Bool) (capacity : Nat) : Option Nat :=
  if capacity ≤ USIZE_MAX / 2 then
    if af capacity then none else some capacity
  else none

/-- `safe_realloc`: asserts `size <= usize::MAX / 2` and
`new_capacity <= usize::MAX / 2` (abort otherwise); then either allocates
fresh (`capacity == 0`) or reallocates, both preserving the initialized
bytes; a null result aborts via `handle_alloc_error`. -/
def safe_realloc (af : Nat → Bool) (capacity new_capacity size : Nat) :
    Option Nat :=
  if size ≤ USIZE_MAX / 2 then
    if new_capacity ≤ USIZE_MAX / 2 then
      if capacity = 0 then
        if af new_capacity then none else some new_capacity
      else
        if af new_capacity then none else some new_capacity
    else none
  else none

/-- `Buffer::with_capacity(n)`: empty buffer; no allocation when `n == 0`,
otherwise an eager `safe_alloc` of exactly `n` bytes. -/
def Buffer.with_capacity (af : Nat → Bool) (n : Nat) : Option Buffer :=
  if n = 0 then some Buffer.new
  else
    match safe_alloc af n with
    | none => none
    | some _ => some ⟨"", n⟩

/-- `Buffer::reserve_internal(size)`: grows to
`max(capacity * 2, capacity + size)` via `safe_realloc`, which preserves the
initialized bytes. -/
def Buffer.reserve_internal (af : Nat → Bool) (b : Buffer) (size : Nat) :
    Option Buffer :=
  match safe_realloc af b.capacity (max (b.capacity * 2) (b.capacity + size))
      size with
  | none => none
  | some _ => some ⟨b.content, max (b.capacity * 2) (b.capacity + size)⟩

/-- `Buffer::reserve(size)`: no-op when
`size <= capacity.wrapping_sub(len)`, otherwise `reserve_internal`. -/
def Buffer.reserve (af : Nat → Bool) (b : Buffer) (size : Nat) :
    Option Buffer :=
  if size ≤ wrappingSub b.capacity b.len then some b
  else b.reserve_internal af size

/-- `Buffer::push_str(data)`: grows via `reserve_internal` when
`size > capacity.wrapping_sub(len)`, then copies `data`'s bytes at offset
`len` and advances `len` by `size`. -/
def Buffer.push_str (af : Nat → Bool) (b : Buffer) (data : String) :
    Option Buffer :=
  if strBytes data > wrappingSub b.capacity b.len then
    match b.reserve_internal af (strBytes data) with
    | none => none
    | some b1 => some ⟨b1.content ++ data, b1.capacity⟩
  else some ⟨b.content ++ data, b.capacity⟩

/-- `Buffer::push(data)`: encodes the character to UTF-8 in a scratch array
and delegates to `push_str`. -/
def Buffer.push (af : Nat → Bool) (b : Buffer) (c : Char) : Option Buffer :=
  b.push_str af (String.singleton c)

/-- `Buffer::clear()`: resets `len` to 0, keeping the capacity. -/
def Buffer.clear (b : Buffer) : Buffer := ⟨"", b.capacity⟩

/-- `Buffer::into_string()`: reinterprets the allocation as an owned string
of the same length and capacity; the observable content is unchanged. -/
def Buffer.into_string (b : Buffer) : String := b.content

/-- `impl From<String> for Buffer`: `into_boxed_str` shrinks the allocation
to the string's length, so `len == capacity == data.len()`. -/
def Buffer.fromString (s : String) : Buffer := ⟨s, strBytes s⟩

/-- `impl Clone for Buffer`: a zero-capacity source clones to `new()`;
otherwise `safe_alloc(self.len)` and a copy of the `len` live bytes, so the
clone's capacity is the source's length. -/
def Buffer.clone (af : Nat → Bool) (b : Buffer) : Option Buffer :=
  if b.capacity = 0 then some Buffer.new
  else
    match safe_alloc af b.len with
    | none => none
    | some _ => some ⟨b.content, b.len⟩

/-- A sequence of `push_str` calls, aborting as soon as one call aborts. -/
def pushSeq (af : Nat → Bool) (b : Buffer) : List String → Option Buffer
  | [] => some b
  | s :: rest =>
    match b.push_str af s with
    | none => none
    | some b' => pushSeq af b' rest

/-- Allocator oracle of a host whose allocator never fails. -/
def allocOk : Nat → Bool := fun _ => false

/- ### Basic lemmas about the byte-length model -/

theorem utf8Len_append (l1 l2 : List Char) :
    utf8Len (l1 ++ l2) = utf8Len l1 + utf8Len l2 := by
  induction l1 with
  | nil => simp [utf8Len]
  | cons c cs ih => simp [utf8Len, ih]; omega

theorem strBytes_append (a b : String) :
    strBytes (a ++ b) = strBytes a + strBytes b := by
  unfold strBytes
  rw [String.data_append, utf8Len_append]

theorem utf8Len_eq_zero (l : List Char) (h : utf8Len l = 0) : l = [] := by
  cases l with
  | nil => rfl
  | cons c cs =>
    exfalso
    have hc := Char.utf8Size_pos c
    simp [utf8Len] at h
    omega

theorem strBytes_eq_zero (s : String) (h : strBytes s = 0) : s = "" := by
  cases s with
  | mk data =>
    have hd : data = [] := utf8Len_eq_zero data h
    simp [hd]

theorem wrappingSub_eq (a b : Nat) (h1 : b ≤ a) (h2 : a ≤ USIZE_MAX) :
    wrappingSub a b = a - b := by
  unfold wrappingSub
  unfold USIZE_MAX at h2 ⊢
  have hm : 2 ^ 64 - 1 + 1 = 2 ^ 64 := by norm_num
  rw [hm]
  have h3 : a + 2 ^ 64 - b = (a - b) + 2 ^ 64 := by omega
  rw [h3, Nat.add_mod_right, Nat.mod_eq_of_lt]
  omega

/- ### Buffer invariant and operation specifications -/

/-- The invariant every reachable buffer satisfies: `len ≤ capacity`, and
the capacity stays within the `safe_alloc` / `safe_realloc` ceiling of half
the address space. -/
def Buffer.inv (b : Buffer) : Prop :=
  b.len ≤ b.capacity ∧ b.capacity ≤ USIZE_MAX / 2

theorem safe_alloc_eq (af : Nat → Bool) (c : Nat) :
    safe_alloc af c =
      if c ≤ USIZE_MAX / 2 ∧ af c = false then some c else none := by
  unfold safe_alloc
  by_cases h1 : c ≤ USIZE_MAX / 2 <;> by_cases h2 : af c <;>
    simp [h1, h2]

theorem safe_realloc_eq (af : Nat → Bool) (c nc s : Nat) :
    safe_realloc af c nc s =
      if s ≤ USIZE_MAX / 2 ∧ nc ≤ USIZE_MAX / 2 ∧ af nc = false then some nc
      else none := by
  unfold safe_realloc
  by_cases h1 : s ≤ USIZE_MAX / 2 <;> by_cases h2 : nc ≤ USIZE_MAX / 2 <;>
    by_cases h3 : af nc <;> by_cases h4 : c = 0 <;>
    simp [h1, h2, h3, h4]

theorem reserve_internal_spec (af : Nat → Bool) (b : Buffer) (size : Nat)
    (b' : Buffer) (h : b.reserve_internal af size = some b') :
    b'.content = b.content ∧
    b'.capacity = max (b.capacity * 2) (b.capacity + size) ∧
    b'.capacity ≤ USIZE_MAX / 2 ∧ size ≤ USIZE_MAX / 2 := by
  unfold Buffer.reserve_internal at h
  rw [safe_realloc_eq] at h
  split at h
  · exact absurd h (by simp)
  · rename_i val heq
    split at heq
    · rename_i hcond
      cases h
      exact ⟨rfl, rfl, hcond.2.1, hcond.1⟩
    · exact absurd heq (by simp)

theorem push_str_content (af : Nat → Bool) (b : Buffer) (s : String)
    (b' : Buffer) (h : b.push_str af s = some b') :
    b'.content = b.content ++ s := by
  unfold Buffer.push_str at h
  split at h
  · cases hm : b.reserve_internal af (strBytes s) with
    | none => rw [hm] at h; exact absurd h (by simp)
    | some b1 =>
      rw [hm] at h
      obtain ⟨hc, -, -, -⟩ := reserve_internal_spec af b (strBytes s) b1 hm
      cases h
      simp [hc]
  · cases h
    rfl

theorem push_str_inv (af : Nat → Bool) (b : Buffer) (s : String)
    (b' : Buffer) (hinv : b.inv) (h : b.push_str af s = some b') :
    b'.inv := by
  obtain ⟨hlen, hcap⟩ := hinv
  have hlen' : b'.len = b.len + strBytes s := by
    have hc := push_str_content af b s b' h
    simp [Buffer.len, hc, strBytes_append]
  unfold Buffer.push_str at h
  split at h
  · cases hm : b.reserve_internal af (strBytes s) with
    | none => rw [hm] at h; exact absurd h (by simp)
    | some b1 =>
      rw [hm] at h
      obtain ⟨-, hcap1, hM, -⟩ := reserve_internal_spec af b (strBytes s) b1 hm
      cases h
      refine ⟨?_, hM⟩
      rw [hlen'] at *
      simp only [hcap1]
      have : b.len + strBytes s ≤ b.capacity + strBytes s := by omega
      exact le_trans this (le_max_right _ _)
  · rename_i hle
    push_neg at hle
    have hws : wrappingSub b.capacity b.len = b.capacity - b.len := by
      apply wrappingSub_eq _ _ hlen
      unfold USIZE_MAX at *
      omega
    rw [hws] at hle
    cases h
    refine ⟨?_, hcap⟩
    rw [hlen'] at *
    simp only []
    omega

theorem pushSeq_spec (af : Nat → Bool) (l : List String) (b : Buffer)
    (hinv : b.inv) (b' : Buffer) (h : pushSeq af b l = some b') :
    b'.content = b.content ++ concatStrs l ∧ b'.inv := by
  induction l generalizing b with
  | nil =>
    cases h
    exact ⟨by simp [concatStrs], hinv⟩
  | cons s rest ih =>
    unfold pushSeq at h
    cases hm : b.push_str af s with
    | none => rw [hm] at h; exact absurd h (by simp)
    | some b1 =>
      rw [hm] at h
      have hc1 := push_str_content af b s b1 hm
      have hi1 := push_str_inv af b s b1 hinv hm
      obtain ⟨hc, hi⟩ := ih b1 hi1 h
      refine ⟨?_, hi⟩
      rw [hc, hc1, concatStrs]
      simp [String.append_assoc]

/- ### C1 and C2: push_str sequences and the growth policy -/

/-- C1: for every sequence of `push_str` calls on a buffer, the final
content equals the concatenation of all pushed spans in encounter order,
and after every operation of the sequence the buffer's length is at most
its capacity. -/
theorem push_str_seq_correct (af : Nat → Bool) (l : List String)
    (b0 : Buffer) (h1 : b0.len ≤ b0.capacity)
    (h2 : b0.capacity ≤ USIZE_MAX / 2) :
    (∀ b', pushSeq af b0 l = some b' →
      b'.content = b0.content ++ concatStrs l) ∧
    (∀ p q b', l = p ++ q → pushSeq af b0 p = some b' →
      b'.len ≤ b'.capacity) := by
  constructor
  · intro b' h
    exact (pushSeq_spec af l b0 ⟨h1, h2⟩ b' h).1
  · intro p q b' hl h
    exact (pushSeq_spec af p b0 ⟨h1, h2⟩ b' h).2.1

/-- Witness for C1: pushing `"apple"` then `"pie"` onto an empty buffer. -/
theorem push_str_seq_correct_witness :
    (⟨"applepie", 10⟩ : Buffer).content =
      ("" : String) ++ concatStrs ["apple", "pie"] ∧
    (⟨"applepie", 10⟩ : Buffer).len ≤ (⟨"applepie", 10⟩ : Buffer).capacity := by
  have h := push_str_seq_correct allocOk ["apple", "pie"] Buffer.new
    (by decide) (by decide)
  exact ⟨h.1 ⟨"applepie", 10⟩ (by decide),
    h.2 ["apple", "pie"] [] ⟨"applepie", 10⟩ (by decide) (by decide)⟩

/-- C2: when spare capacity is insufficient for a requested size `s`, both
`reserve` and `push_str` grow the capacity to exactly
`max(capacity * 2, capacity + s)`, and the bytes already present are
preserved unchanged and in order (the old content is a prefix of the new,
equal for `reserve`). -/
theorem growth_policy_exact (af : Nat → Bool) (b : Buffer) (s : Nat)
    (h1 : b.len ≤ b.capacity) (h2 : b.capacity ≤ USIZE_MAX / 2)
    (hins : s > b.capacity - b.len) :
    (∀ b', b.reserve af s = some b' →
      b'.capacity = max (b.capacity * 2) (b.capacity + s) ∧
      b'.content = b.content) ∧
    (∀ d b', strBytes d = s → b.push_str af d = some b' →
      b'.capacity = max (b.capacity * 2) (b.capacity + s) ∧
      b'.content = b.content ++ d) := by
  have hM : b.capacity ≤ USIZE_MAX := by
    unfold USIZE_MAX at *
    omega
  have hws : wrappingSub b.capacity b.len = b.capacity - b.len :=
    wrappingSub_eq _ _ h1 hM
  constructor
  · intro b' h
    unfold Buffer.reserve at h
    rw [hws] at h
    split at h
    · rename_i hc
      omega
    · obtain ⟨hc, hcap', -, -⟩ := reserve_internal_spec af b s b' h
      exact ⟨hcap', hc⟩
  · intro d b' hd h
    unfold Buffer.push_str at h
    rw [hws, hd] at h
    split at h
    · cases hm : b.reserve_internal af s with
      | none => rw [hm] at h; exact absurd h (by simp)
      | some b1 =>
        rw [hm] at h
        obtain ⟨hc1, hcap1, -, -⟩ := reserve_internal_spec af b s b1 hm
        cases h
        exact ⟨by simp [hcap1], by simp [hc1]⟩
    · rename_i hc
      exact absurd hins hc

/- ### The Render protocol (`render.rs`) -/

/-- `RenderError`: the failure a `Render` operation may in principle
propagate (`Modelled from the spec:` the type lives in the runtime module
root, which is not under `src/`; the spec only requires that it exists so
the protocol composes). -/
structure RenderError where
  msg : String
deriving DecidableEq

/-- Outcome of one `render` / `render_escaped` call: the updated buffer on
success (`Ok(())` plus the mutated `&mut Buffer`) or a propagated error. -/
abbrev RResult := Except RenderError Buffer

/-- Whether a render result is the success variant. -/
def rresOk : RResult → Bool
  | Except.ok _ => true
  | Except.error _ => false

instance : DecidableEq RResult
  | Except.ok a, Except.ok b =>
    if h : a = b then isTrue (by rw [h])
    else isFalse (by intro hc; cases hc; exact h rfl)
  | Except.ok _, Except.error _ => isFalse (by intro hc; cases hc)
  | Except.error _, Except.ok _ => isFalse (by intro hc; cases hc)
  | Except.error e, Except.error f =>
    if h : e = f then isTrue (by rw [h])
    else isFalse (by intro hc; cases hc; exact h rfl)

/-- The five-character HTML entity mapping of the escaping routine and of
`char::render_escaped`; every other character maps to itself. -/
def escEntity (c : Char) : String :=
  if c = '"' then "&quot;"
  else if c = '&' then "&amp;"
  else if c = '<' then "&lt;"
  else if c = '>' then "&gt;"
  else if c = '\'' then "&#039;"
  else String.singleton c

/-- Modelled from the spec: the escaping routine (the `escape` module is
not under `src/`): each occurrence of the five special characters is
replaced by its named entity in encounter order, every other character is
copied unchanged. -/
def escapeStr (s : String) : String := concatStrs (s.data.map escEntity)

/-- Modelled from the spec: `escape::escape_to_buf` appends the escaped
form of `s` to the buffer. -/
def escape_to_buf (af : Nat → Bool) (s : String) (b : Buffer) :
    Option Buffer :=
  b.push_str af (escapeStr s)

/-- `impl Render for String`: `render` pushes the bytes verbatim. -/
def string_render (af : Nat → Bool) (s : String) (b : Buffer) :
    Option RResult :=
  (b.push_str af s).map Except.ok

/-- `impl Render for String`: `render_escaped` escapes directly into `b`. -/
def string_render_escaped (af : Nat → Bool) (s : String) (b : Buffer) :
    Option RResult :=
  (escape_to_buf af s b).map Except.ok

/-- `impl Render for &str`: `render` pushes the bytes verbatim. -/
def str_render (af : Nat → Bool) (s : String) (b : Buffer) :
    Option RResult :=
  (b.push_str af s).map Except.ok

/-- `impl Render for &str`: `render_escaped` escapes directly into `b`. -/
def str_render_escaped (af : Nat → Bool) (s : String) (b : Buffer) :
    Option RResult :=
  (escape_to_buf af s b).map Except.ok

/-- `impl Render for char`: `render` pushes the one character. -/
def char_render (af : Nat → Bool) (c : Char) (b : Buffer) : Option RResult :=
  (b.push af c).map Except.ok

/-- `impl Render for char`: `render_escaped` maps exactly the five special
characters to their entities and pushes every other character unchanged. -/
def char_render_escaped (af : Nat → Bool) (c : Char) (b : Buffer) :
    Option RResult :=
  (if c = '"' then b.push_str af "&quot;"
   else if c = '&' then b.push_str af "&amp;"
   else if c = '<' then b.push_str af "&lt;"
   else if c = '>' then b.push_str af "&gt;"
   else if c = '\'' then b.push_str af "&#039;"
   else b.push af c).map Except.ok

/-- A filesystem path (`Path` / `PathBuf`), represented by its lossy text
conversion `to_string_lossy` (an external std call). -/
structure PathM where
  lossy : String
deriving DecidableEq

/-- `impl Render for PathBuf`: pushes the lossy conversion. -/
def pathbuf_render (af : Nat → Bool) (p : PathM) (b : Buffer) :
    Option RResult :=
  (b.push_str af p.lossy).map Except.ok

/-- `impl Render for PathBuf`: escapes the lossy conversion into `b`. -/
def pathbuf_render_escaped (af : Nat → Bool) (p : PathM) (b : Buffer) :
    Option RResult :=
  (escape_to_buf af p.lossy b).map Except.ok

/-- `impl Render for Path`: pushes the lossy conversion. -/
def path_render (af : Nat → Bool) (p : PathM) (b : Buffer) :
    Option RResult :=
  (b.push_str af p.lossy).map Except.ok

/-- `impl Render for Path`: escapes the lossy conversion into `b`. -/
def path_render_escaped (af : Nat → Bool) (p : PathM) (b : Buffer) :
    Option RResult :=
  (escape_to_buf af p.lossy b).map Except.ok

/-- `impl Render for bool`: pushes the literal `true` / `false`. -/
def bool_render (af : Nat → Bool) (v : Bool) (b : Buffer) : Option RResult :=
  (b.push_str af (if v then "true" else "false")).map Except.ok

/-- `impl Render for bool`: the escaped form forwards to `render`. -/
def bool_render_escaped (af : Nat → Bool) (v : Bool) (b : Buffer) :
    Option RResult :=
  bool_render af v b

/-- Modelled from the spec: the external itoap integer formatter (spec
section 6) writes the value's standard base-10 text at the reserved spot. -/
def intDecimal (n : Int) : String := toString n

/-- The `render_int!` macro body for each integer width: `reserve` the
width's `MAX_LEN`, write the decimal digits into the spare capacity, then
`advance` by the count written. -/
def render_int (af : Nat → Bool) (maxLen : Nat) (n : Int) (b : Buffer) :
    Option RResult :=
  (b.reserve af maxLen).map
    (fun b1 => Except.ok ⟨b1.content ++ intDecimal n, b1.capacity⟩)

/-- The `render_int!` macro's escaped form: forwards to `render`. -/
def render_int_escaped (af : Nat → Bool) (maxLen : Nat) (n : Int)
    (b : Buffer) : Option RResult :=
  render_int af maxLen n b

/-- The `render_nonzero!` macro body: delegates to `self.get()`. -/
def nonzero_render (af : Nat → Bool) (maxLen : Nat) (n : {m : Int // m ≠ 0})
    (b : Buffer) : Option RResult :=
  render_int af maxLen n.val b

/-- The `render_nonzero!` macro's escaped form: delegates to `get()`. -/
def nonzero_render_escaped (af : Nat → Bool) (maxLen : Nat)
    (n : {m : Int // m ≠ 0}) (b : Buffer) : Option RResult :=
  render_int_escaped af maxLen n.val b

/-- Classification of an IEEE float value (f32 or f64) as observed by the
float `Render` impls: `zero` and `fin dec` are the finite values, where
`dec` is the decimal text the external shortest-round-trip formatter
produces for that (nonzero) value. -/
inductive FloatVal where
  | zero
  | fin (dec : String)
  | posInf
  | negInf
  | nan
deriving DecidableEq

/-- `is_finite()`. -/
def FloatVal.isFinite : FloatVal → Bool
  | .zero => true
  | .fin _ => true
  | _ => false

/-- `is_nan()`. -/
def FloatVal.isNan : FloatVal → Bool
  | .nan => true
  | _ => false

/-- The comparison `*self > 0.0`: the float renderers only evaluate it on
non-finite, non-NaN values, i.e. the two infinities; NaN compares false,
and the sign of a finite value is never consulted on that path. -/
def FloatVal.gtZero : FloatVal → Bool
  | .posInf => true
  | _ => false

/-- Modelled from the spec: the external ryu shortest-round-trip formatter
(`ryu::raw::format32` / `format64`, spec section 6); `0.0` formats as
`"0.0"` (spec section 8) and any other finite value carries its decimal
text. Only ever applied to finite values. -/
def ryuFormat : FloatVal → String
  | .zero => "0.0"
  | .fin dec => dec
  | .posInf => ""
  | .negInf => ""
  | .nan => ""

/-- `impl Render for f32`: finite values are formatted into 16 reserved
bytes; otherwise the literal `NaN`, `inf` or `-inf` is pushed. -/
def f32_render (af : Nat → Bool) (v : FloatVal) (b : Buffer) :
    Option RResult :=
  if v.isFinite then
    (b.reserve af 16).map
      (fun b1 => Except.ok ⟨b1.content ++ ryuFormat v, b1.capacity⟩)
  else if v.isNan then (b.push_str af "NaN").map Except.ok
  else if v.gtZero then (b.push_str af "inf").map Except.ok
  else (b.push_str af "-inf").map Except.ok

/-- `impl Render for f32`: the escaped form forwards to `render`. -/
def f32_render_escaped (af : Nat → Bool) (v : FloatVal) (b : Buffer) :
    Option RResult :=
  f32_render af v b

/-- `impl Render for f64`: finite values are formatted into 24 reserved
bytes; otherwise the literal `NaN`, `inf` or `-inf` is pushed. -/
def f64_render (af : Nat → Bool) (v : FloatVal) (b : Buffer) :
    Option RResult :=
  if v.isFinite then
    (b.reserve af 24).map
      (fun b1 => Except.ok ⟨b1.content ++ ryuFormat v, b1.capacity⟩)
  else if v.isNan then (b.push_str af "NaN").map Except.ok
  else if v.gtZero then (b.push_str af "inf").map Except.ok
  else (b.push_str af "-inf").map Except.ok

/-- `impl Render for f64`: the escaped form forwards to `render`. -/
def f64_render_escaped (af : Nat → Bool) (v : FloatVal) (b : Buffer) :
    Option RResult :=
  f64_render af v b

/-- A `Render` trait implementation for values of type `α`: the two
operations, each taking the allocator oracle, the value, and the buffer. -/
structure RenderImpl (α : Type) where
  render : (Nat → Bool) → α → Buffer → Option RResult
  render_escaped : (Nat → Bool) → α → Buffer → Option RResult

/-- An ownership/reference wrapper holding a value: the one shape shared by
all eleven `render_deref!` instantiations (`&T`, `&mut T`, `Box<T>`,
`Rc<T>`, `Arc<T>`, `Cow<T>`, `Ref<T>`, `RefMut<T>`, `MutexGuard<T>`,
`RwLockReadGuard<T>`, `RwLockWriteGuard<T>`); `**self` is `val`. -/
structure DerefW (α : Type) where
  val : α

/-- The `render_deref!` macro body for `render`: `(**self).render(b)`. -/
def deref_render {α : Type} (r : RenderImpl α) (af : Nat → Bool)
    (w : DerefW α) (b : Buffer) : Option RResult :=
  r.render af w.val b

/-- The `render_deref!` macro body for `render_escaped`:
`(**self).render_escaped(b)`. -/
def deref_render_escaped {α : Type} (r : RenderImpl α) (af : Nat → Bool)
    (w : DerefW α) (b : Buffer) : Option RResult :=
  r.render_escaped af w.val b

/-- The wrapper implementation as a bundled `RenderImpl`, for nesting. -/
def derefImpl {α : Type} (r : RenderImpl α) : RenderImpl (DerefW α) :=
  ⟨deref_render r, deref_render_escaped r⟩

/-- The `bool` implementation bundled. -/
def boolImpl : RenderImpl Bool := ⟨bool_render, bool_render_escaped⟩

/-- An integer-width implementation bundled (given the width's MAX_LEN). -/
def intImpl (maxLen : Nat) : RenderImpl Int :=
  ⟨fun af n b => render_int af maxLen n b,
   fun af n b => render_int_escaped af maxLen n b⟩

/-- `Wrapping<T>`: delegates both operations to the inner value. -/
structure WrappingM (α : Type) where
  val : α

/-- `impl Render for Wrapping<T>`: `self.0.render(b)`. -/
def wrapping_render {α : Type} (r : RenderImpl α) (af : Nat → Bool)
    (w : WrappingM α) (b : Buffer) : Option RResult :=
  r.render af w.val b

/-- `impl Render for Wrapping<T>`: `self.0.render_escaped(b)`. -/
def wrapping_render_escaped {α : Type} (r : RenderImpl α) (af : Nat → Bool)
    (w : WrappingM α) (b : Buffer) : Option RResult :=
  r.render_escaped af w.val b

/-- Run a step against each value in turn, stopping at an abort or a
propagated error (the `?` operator of generated template code). -/
def renderChain {α : Type} (step : α → Buffer → Option RResult) :
    List α → Buffer → Option RResult
  | [], b => some (Except.ok b)
  | x :: xs, b =>
    match step x b with
    | none => none
    | some (Except.error e) => some (Except.error e)
    | some (Except.ok b') => renderChain step xs b'

/-- The character sequence of end-to-end scenario 3, escaped one by one
into an empty buffer on a host whose allocator never fails. -/
def charEscapeChain : Option RResult :=
  renderChain (char_render_escaped allocOk) ['c', '<', '&', ' '] Buffer.new

/-- The boolean sequence of end-to-end scenario 2, rendered through zero,
one, two, and three delegation layers into an empty buffer. -/
def boolDerefChain : Option RResult :=
  match bool_render allocOk true Buffer.new with
  | some (Except.ok b1) =>
    match deref_render boolImpl allocOk ⟨false⟩ b1 with
    | some (Except.ok b2) =>
      match deref_render (derefImpl boolImpl) allocOk ⟨⟨true⟩⟩ b2 with
      | some (Except.ok b3) =>
        deref_render (derefImpl (derefImpl boolImpl)) allocOk ⟨⟨⟨false⟩⟩⟩ b3
      | r => r
    | r => r
  | r => r

/- ### Render helper lemmas -/

theorem map_ok_inv (o : Option Buffer) (b' : Buffer)
    (h : o.map (Except.ok : Buffer → RResult) = some (Except.ok b')) :
    o = some b' := by
  cases o with
  | none => simp at h
  | some x => simp at h; rw [h]

theorem map_ok_rresOk (o : Option Buffer) (r : RResult)
    (h : o.map (Except.ok : Buffer → RResult) = some r) : rresOk r = true := by
  cases o with
  | none => simp at h
  | some x =>
    simp at h
    rw [← h]
    rfl

theorem reserve_content (af : Nat → Bool) (b : Buffer) (s : Nat)
    (b' : Buffer) (h : b.reserve af s = some b') :
    b'.content = b.content := by
  unfold Buffer.reserve at h
  split at h
  · cases h; rfl
  · exact (reserve_internal_spec af b s b' h).1

theorem char_render_escaped_eq (af : Nat → Bool) (c : Char) (b : Buffer) :
    char_render_escaped af c b = (b.push_str af (escEntity c)).map Except.ok := by
  unfold char_render_escaped escEntity Buffer.push
  by_cases h1 : c = '"' <;> by_cases h2 : c = '&' <;> by_cases h3 : c = '<' <;>
    by_cases h4 : c = '>' <;> by_cases h5 : c = '\'' <;>
    simp [h1, h2, h3, h4, h5]

/- ### C3, C4, C5 -/

/-- C3: `char::render_escaped` appends the named entity for exactly the
five characters double-quote, ampersand, less-than, greater-than,
single-quote, and appends every other character unchanged; escaping the
sequence `c`, `<`, `&`, space yields `"c&lt;&amp; "`. -/
theorem char_render_escaped_correct :
    (∀ (af : Nat → Bool) (c : Char) (b b' : Buffer),
      char_render_escaped af c b = some (Except.ok b') →
      b'.content = b.content ++ escEntity c) ∧
    charEscapeChain = some (Except.ok ⟨"c&lt;&amp; ", 20⟩) := by
  constructor
  · intro af c b b' h
    rw [char_render_escaped_eq] at h
    exact push_str_content af b (escEntity c) b' (map_ok_inv _ _ h)
  · decide

/-- Witness for C3: escaping `<` into an empty buffer. -/
theorem char_render_escaped_correct_witness :
    (⟨"&lt;", 4⟩ : Buffer).content = ("" : String) ++ escEntity '<' :=
  char_render_escaped_correct.1 allocOk '<' Buffer.new ⟨"&lt;", 4⟩ (by decide)

/-- C4: `clone` produces a buffer whose capacity is exactly the source's
length and whose content equals the source's; pushing onto the source and
onto the clone afterwards changes each buffer independently (each final
content is its own base content plus its own pushed span). -/
theorem clone_exact (af : Nat → Bool) (b : Buffer)
    (h : b.len ≤ b.capacity) :
    (∀ b', Buffer.clone af b = some b' →
      b'.capacity = b.len ∧ b'.content = b.content) ∧
    (∀ b' s1 s2 c1 c2, Buffer.clone af b = some b' →
      b.push_str af s1 = some c1 → b'.push_str af s2 = some c2 →
      c1.content = b.content ++ s1 ∧ c2.content = b.content ++ s2) := by
  have hmain : ∀ b', Buffer.clone af b = some b' →
      b'.capacity = b.len ∧ b'.content = b.content := by
    intro b' hb
    unfold Buffer.clone at hb
    split at hb
    · rename_i hc0
      cases hb
      have hl : b.len = 0 := by
        rw [hc0] at h
        omega
      have hcnt : b.content = "" := strBytes_eq_zero _ hl
      exact ⟨by simp [Buffer.new, hl], by simp [Buffer.new, hcnt]⟩
    · cases hsa : safe_alloc af b.len with
      | none => rw [hsa] at hb; exact absurd hb (by simp)
      | some k =>
        rw [hsa] at hb
        cases hb
        exact ⟨rfl, rfl⟩
  refine ⟨hmain, ?_⟩
  intro b' s1 s2 c1 c2 hb h1 h2
  refine ⟨push_str_content af b s1 c1 h1, ?_⟩
  rw [push_str_content af b' s2 c2 h2, (hmain b' hb).2]

/-- Witness for C4: cloning a buffer holding `"foo"` and then pushing
`"bar"` onto the source and `"baz"` onto the clone. -/
theorem clone_exact_witness :
    ((⟨"foo", 3⟩ : Buffer).capacity = (Buffer.fromString "foo").len ∧
     (⟨"foo", 3⟩ : Buffer).content = (Buffer.fromString "foo").content) ∧
    ((⟨"foobar", 6⟩ : Buffer).content =
        (Buffer.fromString "foo").content ++ "bar" ∧
     (⟨"foobaz", 6⟩ : Buffer).content =
        (Buffer.fromString "foo").content ++ "baz") := by
  have h := clone_exact allocOk (Buffer.fromString "foo") (by decide)
  exact ⟨h.1 ⟨"foo", 3⟩ (by decide),
    h.2 ⟨"foo", 3⟩ "bar" "baz" ⟨"foobar", 6⟩ ⟨"foobaz", 6⟩
      (by decide) (by decide) (by decide)⟩

/-- C5: the only failure mode of any Buffer operation is the fatal abort
(`none`), and for the allocation routines it happens exactly when the
requested size or capacity exceeds half the address space or the host
allocator fails; each buffer operation aborts exactly when the allocation
routine it calls aborts. -/
theorem alloc_failure_fatal (af : Nat → Bool) :
    (∀ c, safe_alloc af c = none ↔ (USIZE_MAX / 2 < c ∨ af c = true)) ∧
    (∀ c nc s, safe_realloc af c nc s = none ↔
      (USIZE_MAX / 2 < s ∨ USIZE_MAX / 2 < nc ∨ af nc = true)) ∧
    (∀ n, Buffer.with_capacity af n = none ↔
      (n ≠ 0 ∧ safe_alloc af n = none)) ∧
    (∀ b s, Buffer.reserve_internal af b s = none ↔
      safe_realloc af b.capacity (max (b.capacity * 2) (b.capacity + s)) s
        = none) ∧
    (∀ b s, Buffer.reserve af b s = none ↔
      (s > wrappingSub b.capacity b.len ∧
        b.reserve_internal af s = none)) ∧
    (∀ b d, Buffer.push_str af b d = none ↔
      (strBytes d > wrappingSub b.capacity b.len ∧
        b.reserve_internal af (strBytes d) = none)) ∧
    (∀ b, Buffer.clone af b = none ↔
      (b.capacity ≠ 0 ∧ safe_alloc af b.len = none)) := by
  refine ⟨?_, ?_, ?_, ?_, ?_, ?_, ?_⟩
  · intro c
    rw [safe_alloc_eq]
    by_cases h1 : c ≤ USIZE_MAX / 2 <;> by_cases h2 : af c <;>
      first
      | (simp [h1, h2]; omega)
      | simp [h1, h2]
  · intro c nc s
    rw [safe_realloc_eq]
    by_cases h1 : s ≤ USIZE_MAX / 2 <;> by_cases h2 : nc ≤ USIZE_MAX / 2 <;>
      by_cases h3 : af nc <;> simp [h1, h2, h3] <;> omega
  · intro n
    unfold Buffer.with_capacity
    by_cases hn : n = 0
    · simp [hn]
    · cases hsa : safe_alloc af n with
      | none => simp [hn, hsa]
      | some k => simp [hn, hsa]
  · intro b s
    unfold Buffer.reserve_internal
    cases hsr : safe_realloc af b.capacity
        (max (b.capacity * 2) (b.capacity + s)) s with
    | none => simp [hsr]
    | some k => simp [hsr]
  · intro b s
    unfold Buffer.reserve
    by_cases hle : s ≤ wrappingSub b.capacity b.len
    · simp only [if_pos hle]
      constructor
      · intro hc
        exact absurd hc (by simp)
      · intro hc
        exact absurd hc.1 (by omega)
    · simp only [if_neg hle]
      constructor
      · intro hc
        exact ⟨by omega, hc⟩
      · intro hc
        exact hc.2
  · intro b d
    unfold Buffer.push_str
    by_cases hgt : strBytes d > wrappingSub b.capacity b.len
    · cases hm : b.reserve_internal af (strBytes d) with
      | none => simp [hgt, hm]
      | some b1 => simp [hgt, hm]
    · simp only [if_neg hgt]
      constructor
      · intro hc
        exact absurd hc (by simp)
      · intro hc
        exact absurd hc.1 hgt
  · intro b
    unfold Buffer.clone
    by_cases hc : b.capacity = 0
    · simp [hc]
    · cases hsa : safe_alloc af b.len with
      | none => simp [hc, hsa]
      | some k => simp [hc, hsa]

/- ### C6, C7, C8 -/

theorem map_write_ok_inv (o : Option Buffer) (f : Buffer → Buffer)
    (b' : Buffer)
    (h : o.map (fun b1 => (Except.ok (f b1) : RResult))
      = some (Except.ok b')) :
    ∃ b1, o = some b1 ∧ b' = f b1 := by
  cases o with
  | none => simp at h
  | some x =>
    simp at h
    exact ⟨x, rfl, h.symm⟩

theorem map_write_rresOk (o : Option Buffer) (f : Buffer → Buffer)
    (r : RResult)
    (h : o.map (fun b1 => (Except.ok (f b1) : RResult)) = some r) :
    rresOk r = true := by
  cases o with
  | none => simp at h
  | some x =>
    simp at h
    rw [← h]
    rfl

/-- C6: every `render_deref!` wrapper implementation forwards both
`render` and `render_escaped` unchanged to the wrapped value's
implementation, producing exactly the same outcome as rendering the
wrapped value directly; rendering `true`, `&false`, `&&true`, `&&&false`
yields `"truefalsetruefalse"`. -/
theorem deref_delegation_correct :
    (∀ (α : Type) (r : RenderImpl α) (af : Nat → Bool) (w : DerefW α)
        (b : Buffer),
      deref_render r af w b = r.render af w.val b ∧
      deref_render_escaped r af w b = r.render_escaped af w.val b) ∧
    boolDerefChain = some (Except.ok ⟨"truefalsetruefalse", 18⟩) := by
  constructor
  · intro α r af w b
    exact ⟨rfl, rfl⟩
  · decide

/-- C7: `f32` and `f64` rendering: `0.0` renders as `0.0`, positive
infinity as `inf`, negative infinity as `-inf`, NaN as `NaN`, and
`render_escaped` is identical to `render` for all float inputs. -/
theorem float_render_correct :
    (∀ (af : Nat → Bool) (b b' : Buffer),
      (f64_render af FloatVal.zero b = some (Except.ok b') →
        b'.content = b.content ++ "0.0") ∧
      (f64_render af FloatVal.posInf b = some (Except.ok b') →
        b'.content = b.content ++ "inf") ∧
      (f64_render af FloatVal.negInf b = some (Except.ok b') →
        b'.content = b.content ++ "-inf") ∧
      (f64_render af FloatVal.nan b = some (Except.ok b') →
        b'.content = b.content ++ "NaN") ∧
      (f32_render af FloatVal.zero b = some (Except.ok b') →
        b'.content = b.content ++ "0.0") ∧
      (f32_render af FloatVal.posInf b = some (Except.ok b') →
        b'.content = b.content ++ "inf") ∧
      (f32_render af FloatVal.negInf b = some (Except.ok b') →
        b'.content = b.content ++ "-inf") ∧
      (f32_render af FloatVal.nan b = some (Except.ok b') →
        b'.content = b.content ++ "NaN")) ∧
    (∀ (af : Nat → Bool) (v : FloatVal) (b : Buffer),
      f64_render_escaped af v b = f64_render af v b ∧
      f32_render_escaped af v b = f32_render af v b) := by
  constructor
  · intro af b b'
    refine ⟨?_, ?_, ?_, ?_, ?_, ?_, ?_, ?_⟩
    · intro h
      obtain ⟨b1, hm, hb'⟩ := map_write_ok_inv _ _ _ h
      subst hb'
      show b1.content ++ "0.0" = b.content ++ "0.0"
      rw [reserve_content af b 24 b1 hm]
    · intro h
      exact push_str_content af b "inf" b' (map_ok_inv _ _ h)
    · intro h
      exact push_str_content af b "-inf" b' (map_ok_inv _ _ h)
    · intro h
      exact push_str_content af b "NaN" b' (map_ok_inv _ _ h)
    · intro h
      obtain ⟨b1, hm, hb'⟩ := map_write_ok_inv _ _ _ h
      subst hb'
      show b1.content ++ "0.0" = b.content ++ "0.0"
      rw [reserve_content af b 16 b1 hm]
    · intro h
      exact push_str_content af b "inf" b' (map_ok_inv _ _ h)
    · intro h
      exact push_str_content af b "-inf" b' (map_ok_inv _ _ h)
    · intro h
      exact push_str_content af b "NaN" b' (map_ok_inv _ _ h)
  · intro af v b
    exact ⟨rfl, rfl⟩

/-- Witness for C7: rendering `f64` positive infinity into an empty
buffer. -/
theorem float_render_correct_witness :
    (⟨"inf", 3⟩ : Buffer).content = ("" : String) ++ "inf" :=
  (float_render_correct.1 allocOk Buffer.new ⟨"inf", 3⟩).2.1 (by decide)

/-- C8: consuming a buffer into an owned string, reconstructing a buffer
from that string, and consuming again preserves the content exactly. -/
theorem into_string_round_trip (b : Buffer) :
    (Buffer.fromString (Buffer.into_string b)).into_string =
      Buffer.into_string b ∧
    (Buffer.fromString (Buffer.into_string b)).content = b.content :=
  ⟨rfl, rfl⟩

/- ### C9, C10, and the remaining witnesses -/

/-- Witness for C2: a full buffer holding `"apple"` (capacity 5) grown by a
`push_str` of `"pie"` (size 3) reaches capacity `max(10, 8) = 10`. -/
theorem growth_policy_exact_witness :
    (⟨"applepie", 10⟩ : Buffer).capacity =
      max ((Buffer.fromString "apple").capacity * 2)
        ((Buffer.fromString "apple").capacity + 3) ∧
    (⟨"applepie", 10⟩ : Buffer).content =
      (Buffer.fromString "apple").content ++ "pie" :=
  (growth_policy_exact allocOk (Buffer.fromString "apple") 3
      (by decide) (by decide) (by decide)).2
    "pie" ⟨"applepie", 10⟩ (by decide) (by decide)

/-- C9: every primitive/leaf `Render` implementation (`String`, `&str`,
`char`, `bool`, `Path`, `PathBuf`, the integer widths, `f32`, `f64`, the
`NonZero` wrappers, `Wrapping`) produces the success variant whenever it
returns, for every input value and buffer state; the failure variant is
never produced. -/
theorem leaf_renders_never_fail (af : Nat → Bool) :
    (∀ s b r, string_render af s b = some r → rresOk r = true) ∧
    (∀ s b r, string_render_escaped af s b = some r → rresOk r = true) ∧
    (∀ s b r, str_render af s b = some r → rresOk r = true) ∧
    (∀ s b r, str_render_escaped af s b = some r → rresOk r = true) ∧
    (∀ c b r, char_render af c b = some r → rresOk r = true) ∧
    (∀ c b r, char_render_escaped af c b = some r → rresOk r = true) ∧
    (∀ v b r, bool_render af v b = some r → rresOk r = true) ∧
    (∀ v b r, bool_render_escaped af v b = some r → rresOk r = true) ∧
    (∀ p b r, path_render af p b = some r → rresOk r = true) ∧
    (∀ p b r, path_render_escaped af p b = some r → rresOk r = true) ∧
    (∀ p b r, pathbuf_render af p b = some r → rresOk r = true) ∧
    (∀ p b r, pathbuf_render_escaped af p b = some r → rresOk r = true) ∧
    (∀ m n b r, render_int af m n b = some r → rresOk r = true) ∧
    (∀ m n b r, render_int_escaped af m n b = some r → rresOk r = true) ∧
    (∀ v b r, f32_render af v b = some r → rresOk r = true) ∧
    (∀ v b r, f32_render_escaped af v b = some r → rresOk r = true) ∧
    (∀ v b r, f64_render af v b = some r → rresOk r = true) ∧
    (∀ v b r, f64_render_escaped af v b = some r → rresOk r = true) ∧
    (∀ m n b r, nonzero_render af m n b = some r → rresOk r = true) ∧
    (∀ m n b r, nonzero_render_escaped af m n b = some r →
      rresOk r = true) ∧
    (∀ m w b r, wrapping_render (intImpl m) af w b = some r →
      rresOk r = true) ∧
    (∀ m w b r, wrapping_render_escaped (intImpl m) af w b = some r →
      rresOk r = true) := by
  have hfloat32 : ∀ v b r, f32_render af v b = some r → rresOk r = true := by
    intro v b r h
    unfold f32_render at h
    split at h
    · exact map_write_rresOk _ _ _ h
    · split at h
      · exact map_ok_rresOk _ _ h
      · split at h
        · exact map_ok_rresOk _ _ h
        · exact map_ok_rresOk _ _ h
  have hfloat64 : ∀ v b r, f64_render af v b = some r → rresOk r = true := by
    intro v b r h
    unfold f64_render at h
    split at h
    · exact map_write_rresOk _ _ _ h
    · split at h
      · exact map_ok_rresOk _ _ h
      · split at h
        · exact map_ok_rresOk _ _ h
        · exact map_ok_rresOk _ _ h
  have hint : ∀ m n b r, render_int af m n b = some r → rresOk r = true := by
    intro m n b r h
    exact map_write_rresOk _ _ _ h
  refine ⟨?_, ?_, ?_, ?_, ?_, ?_, ?_, ?_, ?_, ?_, ?_, ?_, ?_, ?_, ?_, ?_,
    ?_, ?_, ?_, ?_, ?_, ?_⟩
  · intro s b r h
    exact map_ok_rresOk _ _ h
  · intro s b r h
    exact map_ok_rresOk _ _ h
  · intro s b r h
    exact map_ok_rresOk _ _ h
  · intro s b r h
    exact map_ok_rresOk _ _ h
  · intro c b r h
    exact map_ok_rresOk _ _ h
  · intro c b r h
    rw [char_render_escaped_eq] at h
    exact map_ok_rresOk _ _ h
  · intro v b r h
    exact map_ok_rresOk _ _ h
  · intro v b r h
    exact map_ok_rresOk _ _ h
  · intro p b r h
    exact map_ok_rresOk _ _ h
  · intro p b r h
    exact map_ok_rresOk _ _ h
  · intro p b r h
    exact map_ok_rresOk _ _ h
  · intro p b r h
    exact map_ok_rresOk _ _ h
  · exact hint
  · exact hint
  · exact hfloat32
  · exact hfloat32
  · exact hfloat64
  · exact hfloat64
  · intro m n b r h
    exact hint m n.val b r h
  · intro m n b r h
    exact hint m n.val b r h
  · intro m w b r h
    exact hint m w.val b r h
  · intro m w b r h
    exact hint m w.val b r h

/-- Witness for C9: rendering the string `"a"` into an empty buffer
succeeds with the `Ok` variant. -/
theorem leaf_renders_never_fail_witness :
    rresOk (Except.ok (⟨"a", 1⟩ : Buffer)) = true :=
  (leaf_renders_never_fail allocOk).1 "a" Buffer.new
    (Except.ok ⟨"a", 1⟩) (by decide)

/-- C10: for `n > 0`, `with_capacity(n)` returns a buffer with length 0
and capacity exactly `n`; `with_capacity(0)` returns `new()` — length 0,
capacity 0 — without consulting the allocator (no allocation). -/
theorem with_capacity_exact (af : Nat → Bool) (n : Nat) (hn : 0 < n) :
    (∀ b, Buffer.with_capacity af n = some b →
      b.len = 0 ∧ b.capacity = n) ∧
    (∀ af', Buffer.with_capacity af' 0 = some Buffer.new) ∧
    Buffer.new.len = 0 ∧ Buffer.new.capacity = 0 := by
  refine ⟨?_, ?_, rfl, rfl⟩
  · intro b hb
    unfold Buffer.with_capacity at hb
    rw [if_neg (by omega)] at hb
    cases hsa : safe_alloc af n with
    | none => rw [hsa] at hb; exact absurd hb (by simp)
    | some k =>
      rw [hsa] at hb
      cases hb
      exact ⟨rfl, rfl⟩
  · intro af'
    rfl

/-- Witness for C10: `with_capacity(7)` on a never-failing allocator. -/
theorem with_capacity_exact_witness :
    (⟨"", 7⟩ : Buffer).len = 0 ∧ (⟨"", 7⟩ : Buffer).capacity = 7 :=
  (with_capacity_exact allocOk 7 (by decide)).1 ⟨"", 7⟩ (by decide)
